import Mathlib

/-!
Verification of the finlib double-entry accounting core.

The Go sources under pkg/transaction, pkg/storage/memory, pkg/reporting,
pkg/money and pkg/account are shallowly embedded below.  Exact decimals
(shopspring/decimal) are modelled as rationals: the decimal arithmetic the
code performs (Add, Sub) and its numeric Equal comparison are exact, so
the embedding is faithful for every operation the code uses.
Go `time.Time` values are modelled as natural-number instants supplied by
the caller: each call site of `time.Now()` becomes an explicit parameter.
-/

namespace Finlib

/-- Entry side, from pkg/transaction/transaction.go (EntryType: DEBIT or CREDIT). -/
inductive EntryType where
  | debit
  | credit
deriving DecidableEq

/-- EntryType.Reverse from pkg/transaction/transaction.go: swaps debit and credit. -/
def EntryType.reverse : EntryType → EntryType
  | .debit => .credit
  | .credit => .debit

/-- TransactionType from pkg/transaction/transaction.go. -/
inductive TransactionType where
  | journal
  | transfer
  | reversal
deriving DecidableEq

/-- TransactionStatus from pkg/transaction/transaction.go. -/
inductive TransactionStatus where
  | draft
  | pending
  | posted
  | voided
deriving DecidableEq

/-- Money from pkg/money: an exact decimal amount (modelled as a rational)
tagged with a currency code. -/
structure Money where
  amount : ℚ
  currency : String
deriving DecidableEq

/-- Money.IsZero from pkg/money. -/
def Money.isZero (m : Money) : Bool := decide (m.amount = 0)

/-- Money.IsNegative from pkg/money. -/
def Money.isNegative (m : Money) : Bool := decide (m.amount < 0)

/-- Decidable equality for Except values, used when witnesses evaluate
store and processor results. -/
instance {ε α : Type} [DecidableEq ε] [DecidableEq α] : DecidableEq (Except ε α) := fun a b =>
  match a, b with
  | .ok x, .ok y =>
    if h : x = y then .isTrue (by rw [h]) else .isFalse (fun hc => h (Except.ok.inj hc))
  | .ok _, .error _ => .isFalse (fun hc => Except.noConfusion hc)
  | .error _, .ok _ => .isFalse (fun hc => Except.noConfusion hc)
  | .error x, .error y =>
    if h : x = y then .isTrue (by rw [h]) else .isFalse (fun hc => h (Except.error.inj hc))

/-- Entry from pkg/transaction/transaction.go. -/
structure Entry where
  accountID : String
  amount : Money
  type : EntryType
  description : String
deriving DecidableEq

/-- Transaction from pkg/transaction/transaction.go.  Timestamps are
natural-number instants. -/
structure Transaction where
  id : String
  type : TransactionType
  status : TransactionStatus
  date : Nat
  description : String
  entries : List Entry
  createdBy : String
  created : Nat
  lastModified : Nat
  postedAt : Option Nat
  voidedAt : Option Nat
  voidReason : String
  reversedAt : Option Nat
  reversalID : String
  reversedFrom : String
deriving DecidableEq

/-! Validation error codes, from pkg/transaction/processor.go. -/

def ErrCodeInvalidStatus : String := "INVALID_STATUS"
def ErrCodeUnbalanced : String := "UNBALANCED_TRANSACTION"
def ErrCodeInsufficientEntries : String := "INSUFFICIENT_ENTRIES"
def ErrCodeMixedCurrencies : String := "MIXED_CURRENCIES"
def ErrCodeInvalidAmount : String := "INVALID_AMOUNT"
def ErrCodeDuplicateAccount : String := "DUPLICATE_ACCOUNT"

/-- ValidationResult from pkg/transaction/transaction.go, reduced to the
valid flag and the error codes (messages, field paths and detail maps are
never read by any caller in the repository). -/
structure ValidationResult where
  valid : Bool
  errors : List String
deriving DecidableEq

/-- Appending a validation error: every append in BasicValidator.Validate
also sets Valid to false. -/
def ValidationResult.addError (r : ValidationResult) (code : String) : ValidationResult :=
  { valid := false, errors := r.errors ++ [code] }

/-- The per-entry error checks of the loop body in BasicValidator.Validate
(processor.go lines 77-121): zero amount, negative amount, mixed currency
(skipped on the first entry, which instead sets the running currency), and
duplicate account.  `currency` is the running currency before this entry
and `seen` the set of account ids already encountered. -/
def entryResultStep (e : Entry) (i : Nat) (currency : String) (seen : List String)
    (r : ValidationResult) : ValidationResult :=
  let r1 := if e.amount.isZero then r.addError ErrCodeInvalidAmount else r
  let r2 := if e.amount.isNegative then r1.addError ErrCodeInvalidAmount else r1
  let r3 :=
    if i = 0 then r2
    else if e.amount.currency ≠ currency then r2.addError ErrCodeMixedCurrencies
    else r2
  if seen.contains e.accountID then r3.addError ErrCodeDuplicateAccount else r3

/-- The entry loop of BasicValidator.Validate (processor.go lines 77-135).
On the first entry (index 0) the source sets the running currency and
seeds BOTH totals with the entry amount; every entry (the first included)
then adds its amount to the total of its own side, tagging the total with
the running currency. -/
def validateEntriesLoop :
    List Entry → Nat → String → Money → Money → List String → ValidationResult →
    Money × Money × ValidationResult
  | [], _, _, totalDebits, totalCredits, _, r => (totalDebits, totalCredits, r)
  | e :: rest, i, currency, totalDebits, totalCredits, seen, r =>
    let cur := if i = 0 then e.amount.currency else currency
    let tD := if i = 0 then e.amount else totalDebits
    let tC := if i = 0 then e.amount else totalCredits
    let r3 := entryResultStep e i currency seen r
    match e.type with
    | .debit =>
      validateEntriesLoop rest (i + 1) cur
        ⟨tD.amount + e.amount.amount, cur⟩ tC (e.accountID :: seen) r3
    | .credit =>
      validateEntriesLoop rest (i + 1) cur
        tD ⟨tC.amount + e.amount.amount, cur⟩ (e.accountID :: seen) r3

/-- BasicValidator.Validate (processor.go lines 56-151): the entry-count
check, the entry loop, and the final debits-equal-credits check. -/
def BasicValidator.Validate (tx : Transaction) : ValidationResult :=
  let r0 : ValidationResult := { valid := true, errors := [] }
  let r1 := if tx.entries.length < 2 then r0.addError ErrCodeInsufficientEntries else r0
  let out := validateEntriesLoop tx.entries 0 "" ⟨0, ""⟩ ⟨0, ""⟩ [] r1
  if out.1.amount ≠ out.2.1.amount then out.2.2.addError ErrCodeUnbalanced else out.2.2

/-- Sum of the amounts of the debit entries of a list (the specification's
Σ debit amounts). -/
def sumDebits (entries : List Entry) : ℚ :=
  (entries.map (fun e => if e.type = EntryType.debit then e.amount.amount else (0 : ℚ))).sum

/-- Sum of the amounts of the credit entries of a list (the specification's
Σ credit amounts). -/
def sumCredits (entries : List Entry) : ℚ :=
  (entries.map (fun e => if e.type = EntryType.credit then e.amount.amount else (0 : ℚ))).sum

/-- Failure outcomes of ProcessTransaction (processor.go lines 173-201):
validation failure, the Draft-or-Pending status check, or a repository
Update failure. -/
inductive ProcError where
  | validationFailed (errors : List String)
  | invalidStatus
  | storeFailed
deriving DecidableEq

/-- BasicTransactionProcessor.ProcessTransaction (processor.go lines
173-201), as a pure function.  The repository Update outcome is supplied
as `updateOk`, and `now` stands for the time.Now() call.  The second
component of the result is the caller-visible in-memory transaction
object after the call: the source mutates the object in place before the
store write and does not restore it when the write fails. -/
def ProcessTransaction (updateOk : Bool) (now : Nat) (tx : Transaction) :
    Except ProcError Unit × Transaction :=
  let result := BasicValidator.Validate tx
  if result.valid = false then
    (Except.error (ProcError.validationFailed result.errors), tx)
  else if tx.status ≠ TransactionStatus.draft ∧ tx.status ≠ TransactionStatus.pending then
    (Except.error ProcError.invalidStatus, tx)
  else
    let tx1 := { tx with
      status := TransactionStatus.posted
      postedAt := some now
      lastModified := now }
    if updateOk then (Except.ok (), tx1) else (Except.error ProcError.storeFailed, tx1)

/-- TransactionSummary from pkg/transaction/transaction.go. -/
structure TransactionSummary where
  totalDebits : Money
  totalCredits : Money
  netAmount : Money
  entryCount : Nat
  affectedAccounts : List String
deriving DecidableEq

/-- The totals loop of GetTransactionSummary (processor.go lines 272-285):
each entry adds its amount to its own side's total, retagging that total
with the entry's currency, and appends its account id. -/
def summaryLoop : List Entry → Money → Money → List String → Money × Money × List String
  | [], totalDebits, totalCredits, accts => (totalDebits, totalCredits, accts)
  | e :: rest, totalDebits, totalCredits, accts =>
    match e.type with
    | .debit =>
      summaryLoop rest ⟨totalDebits.amount + e.amount.amount, e.amount.currency⟩
        totalCredits (accts ++ [e.accountID])
    | .credit =>
      summaryLoop rest totalDebits ⟨totalCredits.amount + e.amount.amount, e.amount.currency⟩
        (accts ++ [e.accountID])

/-- BasicTransactionProcessor.GetTransactionSummary (processor.go lines
266-293).  The source reads tx.Entries[0] unconditionally to pick the
net-amount currency, so on an empty entry list the access is out of
bounds; that partiality is modelled by returning `none`. -/
def GetTransactionSummary (tx : Transaction) : Option TransactionSummary :=
  let out := summaryLoop tx.entries ⟨0, ""⟩ ⟨0, ""⟩ []
  match tx.entries with
  | [] => none
  | e0 :: _ =>
    some { totalDebits := out.1
           totalCredits := out.2.1
           netAmount := ⟨out.1.amount - out.2.1.amount, e0.amount.currency⟩
           entryCount := tx.entries.length
           affectedAccounts := out.2.2 }

/-- Association-list lookup, modelling a Go map read (returns the value
bound to the first occurrence of the key). -/
def lookupList {α : Type} (l : List (String × α)) (id : String) : Option α :=
  (l.find? (fun p => p.1 == id)).map (fun p => p.2)

/-- Association-list write, modelling a Go map assignment: replaces the
binding when the key is present, appends it otherwise. -/
def upsert {α : Type} (l : List (String × α)) (id : String) (v : α) : List (String × α) :=
  if (l.find? (fun p => p.1 == id)).isSome then
    l.map (fun p => if p.1 == id then (id, v) else p)
  else l ++ [(id, v)]

/-- Failure outcomes of VoidTransaction (processor.go lines 296-325).
`notFound` is the GetTransaction failure, `cannotVoidNonPosted` the
"only posted transactions can be voided" error and `alreadyVoided` the
"transaction is already voided" error. -/
inductive VoidError where
  | notFound
  | cannotVoidNonPosted
  | alreadyVoided
deriving DecidableEq

/-- BasicTransactionProcessor.VoidTransaction (processor.go lines 296-325)
running against the reference in-memory store, modelled as an association
list from transaction id to transaction (MemoryStore.Update on an id that
was just read always succeeds, so no write-failure parameter is needed).
`now` stands for time.Now(). -/
def VoidTransaction (store : List (String × Transaction)) (txID reason : String) (now : Nat) :
    Except VoidError (List (String × Transaction)) :=
  match lookupList store txID with
  | none => Except.error VoidError.notFound
  | some tx =>
    if tx.status ≠ TransactionStatus.posted then Except.error VoidError.cannotVoidNonPosted
    else if tx.voidedAt ≠ none then Except.error VoidError.alreadyVoided
    else
      let tx1 := { tx with
        status := TransactionStatus.voided
        voidedAt := some now
        voidReason := reason
        lastModified := now }
      Except.ok (upsert store txID tx1)

/-- Failure outcomes of ReverseTransaction (processor.go lines 328-386). -/
inductive ReverseError where
  | cannotReverseNonPosted
  | alreadyReversed
  | processFailed (e : ProcError)
  | storeFailed
deriving DecidableEq

/-- The reversed entry built in ReverseTransaction (processor.go lines
359-366): same account and amount, swapped side, derived description. -/
def reverseEntry (e : Entry) : Entry :=
  { accountID := e.accountID
    amount := e.amount
    type := e.type.reverse
    description := "Reversal of: " ++ e.description }

/-- Observable outcome of ReverseTransaction: the returned error or
success, the caller-visible original transaction after the call, the
reversal transaction as processed (when construction was reached), and
whether the repository Update of the original was invoked. -/
structure RevOutcome where
  result : Except ReverseError Unit
  orig : Transaction
  reversal : Option Transaction
  origPersisted : Bool

/-- The reversal transaction constructed by ReverseTransaction
(processor.go lines 344-366): "REV-" prefixed id, type Reversal, status
Draft, reversed entries, reversed-from pointing at the original. -/
def reversalTxOf (origTx : Transaction) (reason : String) (now : Nat) : Transaction :=
  { id := "REV-" ++ origTx.id
    type := TransactionType.reversal
    status := TransactionStatus.draft
    date := now
    description := "Reversal of " ++ origTx.id ++ ": " ++ reason
    entries := origTx.entries.map reverseEntry
    createdBy := origTx.createdBy
    created := now
    lastModified := now
    postedAt := none
    voidedAt := none
    voidReason := ""
    reversedAt := none
    reversalID := ""
    reversedFrom := origTx.id }

/-- BasicTransactionProcessor.ReverseTransaction (processor.go lines
328-386).  The GetTransaction load is abstracted into the `origTx`
argument; the repository Update outcomes for the reversal (inside
ProcessTransaction) and for the original are supplied as `revUpdateOk`
and `origUpdateOk`; `now` stands for time.Now(). -/
def ReverseTransaction (origTx : Transaction) (reason : String)
    (revUpdateOk origUpdateOk : Bool) (now : Nat) : RevOutcome :=
  if origTx.status ≠ TransactionStatus.posted then
    ⟨Except.error ReverseError.cannotReverseNonPosted, origTx, none, false⟩
  else if origTx.reversedAt ≠ none then
    ⟨Except.error ReverseError.alreadyReversed, origTx, none, false⟩
  else
    let proc := ProcessTransaction revUpdateOk now (reversalTxOf origTx reason now)
    match proc.1 with
    | Except.error e => ⟨Except.error (ReverseError.processFailed e), origTx, some proc.2, false⟩
    | Except.ok _ =>
      let orig1 := { origTx with
        reversedAt := some now
        reversalID := proc.2.id
        lastModified := now }
      if origUpdateOk then ⟨Except.ok (), orig1, some proc.2, true⟩
      else ⟨Except.error ReverseError.storeFailed, orig1, some proc.2, true⟩

/-- Failure outcomes of ProcessTransactionBatch (processor.go lines
204-253). -/
inductive BatchError where
  | validationFailed (id : String) (errors : List String)
  | invalidStatus (id : String)
  | storeFailed (id : String)
deriving DecidableEq

/-- Phase 1 of ProcessTransactionBatch (processor.go lines 209-223):
validate every transaction and check its status, stopping at the first
failure, before anything is written or mutated. -/
def validateAll : List Transaction → Option BatchError
  | [] => none
  | tx :: rest =>
    if (BasicValidator.Validate tx).valid = false then
      some (BatchError.validationFailed tx.id (BasicValidator.Validate tx).errors)
    else if tx.status ≠ TransactionStatus.draft ∧ tx.status ≠ TransactionStatus.pending then
      some (BatchError.invalidStatus tx.id)
    else validateAll rest

/-- The posted stamp applied to every batch element (processor.go lines
226-231). -/
def stampPosted (now : Nat) (tx : Transaction) : Transaction :=
  { tx with status := TransactionStatus.posted, postedAt := some now, lastModified := now }

/-- The rollback write applied on batch failure (processor.go lines
240-247): status back to Draft, posted-at cleared, last-modified
restamped. -/
def draftReset (rollNow : Nat) (tx : Transaction) : Transaction :=
  { tx with status := TransactionStatus.draft, postedAt := none, lastModified := rollNow }

/-- Phase 2 write loop of ProcessTransactionBatch (processor.go lines
235-250), recording every attempted store write as a (success, snapshot)
pair and stopping at the first failure, whose id is returned. -/
def writesUntilFailure (updateOk : String → Bool) :
    List Transaction → List (Bool × Transaction) × Option String
  | [] => ([], none)
  | tx :: rest =>
    if updateOk tx.id then
      let out := writesUntilFailure updateOk rest
      ((true, tx) :: out.1, out.2)
    else ([(false, tx)], some tx.id)

/-- BasicTransactionProcessor.ProcessTransactionBatch (processor.go lines
204-253).  The repository's per-write outcome is supplied as `updateOk`
(keyed by transaction id), `now` stands for the stamping time.Now() and
`rollNow` for the rollback-time time.Now() calls.  Returns the error or
success, the caller-visible in-memory batch after the call, and the full
trace of attempted store writes in order.  On a phase-2 failure the
source rolls back every in-memory transaction whose status is Posted:
the stamping loop has already set all of them to Posted, so every batch
element is reset and written back, with those write errors discarded. -/
def ProcessTransactionBatch (updateOk : String → Bool) (now rollNow : Nat)
    (txs : List Transaction) :
    Except BatchError Unit × List Transaction × List (Bool × Transaction) :=
  if txs.length = 0 then (Except.ok (), txs, [])
  else
    match validateAll txs with
    | some e => (Except.error e, txs, [])
    | none =>
      let stamped := txs.map (stampPosted now)
      let out := writesUntilFailure updateOk stamped
      match out.2 with
      | none => (Except.ok (), stamped, out.1)
      | some failedId =>
        (Except.error (BatchError.storeFailed failedId),
          stamped.map (draftReset rollNow),
          out.1 ++ stamped.map (fun t => (updateOk t.id, draftReset rollNow t)))

/-! The generic in-memory store, pkg/storage/memory/store.go.  The Go
store keys its data by entity type and id; the model fixes one entity
type `E` (the type-indexed outer map adds nothing for a single type) and
abstracts the reflection-based accessors into `EntityOps`: `getID` for
the GetID capability and `getVersion` for the optional GetVersion
capability (present for version-exposing entity types).  The Go per-id
audit map, appended in mutation order, is modelled as one global log in
append order; the per-id trail is its filtration by entity id. -/

/-- AuditEntry from pkg/storage/types.go, reduced to the fields the store
writes (id strings and user/metadata fields are never read back). -/
structure AuditEntry (E : Type) where
  entityID : String
  operation : String
  timestamp : Nat
  previousState : Option E
  newState : Option E
deriving DecidableEq

/-- The reflection-based entity accessors of the memory store
(getEntityID and the GetVersion capability probe). -/
structure EntityOps (E : Type) where
  getID : E → String
  getVersion : Option (E → Int)

/-- The internal state of MemoryStore: data map, audit log, version map.
A missing version entry reads as 0, like a Go map of int64. -/
structure StoreState (E : Type) where
  data : List (String × E)
  audit : List (AuditEntry E)
  version : List (String × Int)
deriving DecidableEq

/-- Failure outcomes of the memory store operations. -/
inductive StoreError where
  | invalidId
  | duplicateId (id : String)
  | notFound (id : String)
  | optimisticLock (current expected : Int)
deriving DecidableEq

/-- Version map read with the Go zero default. -/
def versionOf (vs : List (String × Int)) (id : String) : Int :=
  (lookupList vs id).getD 0

/-- MemoryStore.Create (store.go lines 30-54): rejects an empty id and a
duplicate id, stores the entity, initializes the version to 1 and appends
a CREATE audit record.  The state component of the result is the store
after the call (unchanged on failure, as the Go method leaves its
receiver). -/
def MemoryStore.create {E : Type} (ops : EntityOps E) (now : Nat) (s : StoreState E)
    (e : E) : Except StoreError Unit × StoreState E :=
  let id := ops.getID e
  if id = "" then (Except.error StoreError.invalidId, s)
  else if (lookupList s.data id).isSome then (Except.error (StoreError.duplicateId id), s)
  else
    (Except.ok (),
      { data := upsert s.data id e
        audit := s.audit ++ [⟨id, "CREATE", now, none, some e⟩]
        version := upsert s.version id 1 })

/-- MemoryStore.Update (store.go lines 77-112): fails when the entity is
absent; when the entity type exposes GetVersion, fails with an
optimistic-lock error carrying the stored (current) and expected versions
on mismatch; otherwise increments the stored version, overwrites the
entity and appends an UPDATE audit record with the prior and new
snapshots. -/
def MemoryStore.update {E : Type} (ops : EntityOps E) (now : Nat) (s : StoreState E)
    (e : E) : Except StoreError Unit × StoreState E :=
  let id := ops.getID e
  match lookupList s.data id with
  | none => (Except.error (StoreError.notFound id), s)
  | some old =>
    let currentVersion := versionOf s.version id
    match ops.getVersion with
    | some gv =>
      if gv e ≠ currentVersion then
        (Except.error (StoreError.optimisticLock currentVersion (gv e)), s)
      else
        (Except.ok (),
          { data := upsert s.data id e
            audit := s.audit ++ [⟨id, "UPDATE", now, some old, some e⟩]
            version := upsert s.version id (currentVersion + 1) })
    | none =>
      (Except.ok (),
        { data := upsert s.data id e
          audit := s.audit ++ [⟨id, "UPDATE", now, some old, some e⟩]
          version := upsert s.version id (currentVersion + 1) })

/-- MemoryStore.Delete (store.go lines 115-129): removes the entity when
present and appends a DELETE audit record; fails with not-found
otherwise.  The version entry is left behind, as in the source. -/
def MemoryStore.delete {E : Type} (now : Nat) (s : StoreState E) (id : String) :
    Except StoreError Unit × StoreState E :=
  match lookupList s.data id with
  | none => (Except.error (StoreError.notFound id), s)
  | some old =>
    (Except.ok (),
      { data := s.data.filter (fun p => ¬ p.1 == id)
        audit := s.audit ++ [⟨id, "DELETE", now, some old, none⟩]
        version := s.version })

/-- MemoryStore.GetAuditTrail (store.go lines 147-156): the ordered audit
records of one entity id. -/
def MemoryStore.auditTrail {E : Type} (s : StoreState E) (id : String) : List (AuditEntry E) :=
  s.audit.filter (fun a => a.entityID == id)

/-- A mutating operation submitted to the store. -/
inductive StoreOp (E : Type) where
  | create (e : E)
  | update (e : E)
  | delete (id : String)
deriving DecidableEq

/-- Dispatch one store operation. -/
def runOp {E : Type} (ops : EntityOps E) (now : Nat) (s : StoreState E) :
    StoreOp E → Except StoreError Unit × StoreState E
  | .create e => MemoryStore.create ops now s e
  | .update e => MemoryStore.update ops now s e
  | .delete id => MemoryStore.delete now s id

/-- Run a sequence of timestamped store operations, threading the store
state (failed operations leave it unchanged). -/
def runOps {E : Type} (ops : EntityOps E) : StoreState E → List (Nat × StoreOp E) → StoreState E
  | s, [] => s
  | s, (now, op) :: rest => runOps ops (runOp ops now s op).2 rest

/-- The audit records a single operation is specified to append: exactly
one for a successful mutation, carrying the operation name and the
previous and new state snapshots, and none for a failed one. -/
def opRecords {E : Type} (ops : EntityOps E) (now : Nat) (s : StoreState E)
    (op : StoreOp E) : List (AuditEntry E) :=
  match (runOp ops now s op).1 with
  | Except.error _ => []
  | Except.ok _ =>
    match op with
    | .create e => [⟨ops.getID e, "CREATE", now, none, some e⟩]
    | .update e => [⟨ops.getID e, "UPDATE", now, lookupList s.data (ops.getID e), some e⟩]
    | .delete id => [⟨id, "DELETE", now, lookupList s.data id, none⟩]

/-- The audit records a sequence of operations is specified to append, in
commit order. -/
def expectedAudit {E : Type} (ops : EntityOps E) :
    StoreState E → List (Nat × StoreOp E) → List (AuditEntry E)
  | _, [] => []
  | s, (now, op) :: rest =>
    opRecords ops now s op ++ expectedAudit ops (runOp ops now s op).2 rest

/-! The reporting calculator, pkg/reporting (second revision of
calculator.go, the one wired to the transaction store). -/

/-- AccountType from pkg/account. -/
inductive AccountType where
  | asset
  | liability
  | equity
  | revenue
  | expense
deriving DecidableEq

/-- AccountStatus from pkg/account. -/
inductive AccountStatus where
  | active
  | inactive
  | closed
  | frozen
deriving DecidableEq

/-- Account from pkg/account (the extensibility metadata map carries no
data the core reads and is omitted). -/
structure Account where
  id : String
  code : String
  name : String
  type : AccountType
  status : AccountStatus
  parentID : Option String
  created : Nat
  lastModified : Nat
  balance : Option Money
deriving DecidableEq

/-- ReportPeriod from pkg/reporting/types.go; `start` and `stop` are the
period's Start and End instants. -/
structure ReportPeriod where
  start : Nat
  stop : Nat
deriving DecidableEq

/-- The declarative query built by getTransactionsForPeriod
(calculator.go lines 285-305): status = Posted, business date within the
period, and some entry referencing the account id. -/
def matchesPeriodQuery (accountID : String) (period : ReportPeriod) (tx : Transaction) : Bool :=
  (tx.entries.any (fun e => e.accountID == accountID))
    && decide (period.start ≤ tx.date) && decide (tx.date ≤ period.stop)
    && decide (tx.status = TransactionStatus.posted)

/-- getTransactionsForPeriod (calculator.go lines 285-305): the
transactions of the store matching the query, executed per the
Repository.Query contract (the date sort requested by the query does not
change which transactions arrive and the balance fold below is
order-insensitive, so the store order is kept). -/
def getTransactionsForPeriod (txStore : List Transaction) (accountID : String)
    (period : ReportPeriod) : List Transaction :=
  txStore.filter (matchesPeriodQuery accountID period)

/-- Failure outcomes of CalculateBalance.  `indexOutOfBounds` models the
Go panic on `transactions[0].Entries[0]` when the first transaction has
no entries. -/
inductive CalcError where
  | accountReadFailed
  | indexOutOfBounds
  | mixedCurrencies
deriving DecidableEq

/-- The entry fold of calculateBalanceFromTransactions (calculator.go
lines 316-337) over one transaction's entries: every entry of the
transaction is folded in (the source has no account-id filter here), a
currency mismatch aborts, and the sign is the account type's normal
direction. -/
def balanceEntriesLoop (currency : String) (accountType : AccountType) :
    List Entry → ℚ → Except CalcError ℚ
  | [], acc => Except.ok acc
  | e :: rest, acc =>
    if e.amount.currency ≠ currency then Except.error CalcError.mixedCurrencies
    else
      let acc1 :=
        match e.type with
        | .debit =>
          if accountType = AccountType.asset ∨ accountType = AccountType.expense then
            acc + e.amount.amount
          else acc - e.amount.amount
        | .credit =>
          if accountType = AccountType.asset ∨ accountType = AccountType.expense then
            acc - e.amount.amount
          else acc + e.amount.amount
      balanceEntriesLoop currency accountType rest acc1

/-- The transaction fold of calculateBalanceFromTransactions. -/
def balanceTxsLoop (currency : String) (accountType : AccountType) :
    List Transaction → ℚ → Except CalcError ℚ
  | [], acc => Except.ok acc
  | t :: rest, acc =>
    match balanceEntriesLoop currency accountType t.entries acc with
    | Except.error e => Except.error e
    | Except.ok acc1 => balanceTxsLoop currency accountType rest acc1

/-- defaultReportCalculator.calculateBalanceFromTransactions
(calculator.go lines 307-340): zero with the fixed currency "USD" when no
transactions match, otherwise a fold of every entry of every matching
transaction, in the currency of the first transaction's first entry. -/
def calculateBalanceFromTransactions (txs : List Transaction) (accountType : AccountType) :
    Except CalcError Money :=
  match txs with
  | [] => Except.ok ⟨0, "USD"⟩
  | t0 :: _ =>
    match t0.entries with
    | [] => Except.error CalcError.indexOutOfBounds
    | e0 :: _ =>
      match balanceTxsLoop e0.amount.currency accountType txs 0 with
      | Except.error e => Except.error e
      | Except.ok b => Except.ok ⟨b, e0.amount.currency⟩

/-- defaultReportCalculator.CalculateBalance (calculator.go lines
188-203): read the account, query the period's posted transactions for
the account, fold the balance. -/
def CalculateBalance (accounts : List (String × Account)) (txStore : List Transaction)
    (accountID : String) (period : ReportPeriod) : Except CalcError Money :=
  match lookupList accounts accountID with
  | none => Except.error CalcError.accountReadFailed
  | some acc =>
    calculateBalanceFromTransactions (getTransactionsForPeriod txStore accountID period)
      acc.type

/-- The normal balance side of an account type (spec §4.2: Asset and
Expense are debit-normal; Liability, Equity, Revenue are credit-normal). -/
def normalSide : AccountType → EntryType
  | .asset => .debit
  | .expense => .debit
  | .liability => .credit
  | .equity => .credit
  | .revenue => .credit

/-- The balance the specification prescribes for an account over a list
of transactions: over the entries that reference the account id, add the
amounts on the normal side and subtract those on the opposite side. -/
def accountBalanceSpec (accountID : String) (atype : AccountType)
    (txs : List Transaction) : ℚ :=
  txs.foldl (fun acc t =>
    t.entries.foldl (fun acc2 e =>
      if e.accountID = accountID then
        (if e.type = normalSide atype then acc2 + e.amount.amount
         else acc2 - e.amount.amount)
      else acc2) acc) 0

/-! Concrete inputs for witnesses and counterexamples. -/

/-- A concrete balanced two-entry transaction. -/
def sampleTx : Transaction :=
  { id := "T1"
    type := .journal
    status := .draft
    date := 5
    description := "sale"
    entries :=
      [ { accountID := "A", amount := { amount := 100, currency := "USD" },
          type := .debit, description := "d" }
      , { accountID := "B", amount := { amount := 100, currency := "USD" },
          type := .credit, description := "c" } ]
    createdBy := "alice"
    created := 1
    lastModified := 1
    postedAt := none
    voidedAt := none
    voidReason := ""
    reversedAt := none
    reversalID := ""
    reversedFrom := "" }

/-- The sample transaction as already posted. -/
def postedTx : Transaction :=
  { sampleTx with
    status := TransactionStatus.posted
    postedAt := some 10 }

/-- A second balanced draft transaction, for batch inputs. -/
def sampleTx2 : Transaction :=
  { sampleTx with
    id := "T2"
    description := "refund"
    entries :=
      [ { accountID := "A", amount := { amount := 40, currency := "USD" },
          type := .credit, description := "d" }
      , { accountID := "B", amount := { amount := 40, currency := "USD" },
          type := .debit, description := "c" } ] }

/-- An Asset account named A, held in the reporting account store. -/
def acctA : Account :=
  { id := "A"
    code := "1000"
    name := "Cash"
    type := AccountType.asset
    status := AccountStatus.active
    parentID := none
    created := 0
    lastModified := 0
    balance := none }

/-- An account whose balance is denominated in EUR. -/
def acctEUR : Account :=
  { acctA with
    id := "E"
    code := "1010"
    name := "EUR Cash"
    balance := some { amount := 0, currency := "EUR" } }

/-- A concrete entity type for exercising the generic store: id, exposed
version, and a payload value. -/
structure Acct where
  aid : String
  ver : Int
  val : Int
deriving DecidableEq

/-- Entity accessors for `Acct`: GetID returns the id and GetVersion is
exposed. -/
def acctOps : EntityOps Acct := ⟨Acct.aid, some Acct.ver⟩

theorem sumDebits_cons (e : Entry) (rest : List Entry) :
    sumDebits (e :: rest)
      = (if e.type = EntryType.debit then e.amount.amount else 0) + sumDebits rest := by
  simp [sumDebits]

theorem sumCredits_cons (e : Entry) (rest : List Entry) :
    sumCredits (e :: rest)
      = (if e.type = EntryType.credit then e.amount.amount else 0) + sumCredits rest := by
  simp [sumCredits]

theorem valid_of_ite_addError {c : Prop} [Decidable c] {r : ValidationResult} {code : String}
    (h : (if c then r.addError code else r).valid = true) : r.valid = true ∧ ¬c := by
  by_cases hc : c
  · rw [if_pos hc] at h
    exact absurd h (by simp [ValidationResult.addError])
  · rw [if_neg hc] at h
    exact ⟨h, hc⟩

/-- If the per-entry checks leave the result valid, the incoming result was
valid and (except on the first entry) the entry's currency matches the
running currency. -/
theorem entryResultStep_valid {e : Entry} {i : Nat} {currency : String} {seen : List String}
    {r : ValidationResult} (h : (entryResultStep e i currency seen r).valid = true) :
    r.valid = true ∧ (i ≠ 0 → e.amount.currency = currency) := by
  simp only [entryResultStep] at h
  obtain ⟨h3, -⟩ := valid_of_ite_addError h
  by_cases hi : i = 0
  · rw [if_pos hi] at h3
    obtain ⟨h1, -⟩ := valid_of_ite_addError h3
    obtain ⟨h0, -⟩ := valid_of_ite_addError h1
    exact ⟨h0, fun hne => absurd hi hne⟩
  · rw [if_neg hi] at h3
    obtain ⟨h2, hcur⟩ := valid_of_ite_addError h3
    obtain ⟨h1, -⟩ := valid_of_ite_addError h2
    obtain ⟨h0, -⟩ := valid_of_ite_addError h1
    exact ⟨h0, fun _ => not_not.mp hcur⟩

/-- Totals invariant of the entry loop away from index 0: each side's
total grows by exactly the sum of that side's entry amounts. -/
theorem validateEntriesLoop_totals (entries : List Entry) :
    ∀ (i : Nat), i ≠ 0 → ∀ (cur : String) (tD tC : Money) (seen : List String)
      (r : ValidationResult),
      (validateEntriesLoop entries i cur tD tC seen r).1.amount
          = tD.amount + sumDebits entries ∧
      (validateEntriesLoop entries i cur tD tC seen r).2.1.amount
          = tC.amount + sumCredits entries := by
  induction entries with
  | nil =>
    intro i hi cur tD tC seen r
    simp [validateEntriesLoop, sumDebits, sumCredits]
  | cons e rest ih =>
    intro i hi cur tD tC seen r
    cases hty : e.type
    · simp only [validateEntriesLoop, if_neg hi, hty]
      obtain ⟨h1, h2⟩ := ih (i + 1) (Nat.succ_ne_zero i) cur
        ⟨tD.amount + e.amount.amount, cur⟩ tC (e.accountID :: seen)
        (entryResultStep e i cur seen r)
      refine ⟨?_, ?_⟩
      · rw [h1, sumDebits_cons, hty]
        simp
        ring
      · rw [h2, sumCredits_cons, hty]
        simp
    · simp only [validateEntriesLoop, if_neg hi, hty]
      obtain ⟨h1, h2⟩ := ih (i + 1) (Nat.succ_ne_zero i) cur
        tD ⟨tC.amount + e.amount.amount, cur⟩ (e.accountID :: seen)
        (entryResultStep e i cur seen r)
      refine ⟨?_, ?_⟩
      · rw [h1, sumDebits_cons, hty]
        simp
      · rw [h2, sumCredits_cons, hty]
        simp
        ring

/-- Validity invariant of the entry loop away from index 0: a valid
outcome means the incoming result was valid and every remaining entry
carries the running currency. -/
theorem validateEntriesLoop_validInv (entries : List Entry) :
    ∀ (i : Nat), i ≠ 0 → ∀ (cur : String) (tD tC : Money) (seen : List String)
      (r : ValidationResult),
      (validateEntriesLoop entries i cur tD tC seen r).2.2.valid = true →
      r.valid = true ∧ ∀ e ∈ entries, e.amount.currency = cur := by
  induction entries with
  | nil =>
    intro i hi cur tD tC seen r h
    simp only [validateEntriesLoop] at h
    exact ⟨h, by simp⟩
  | cons e rest ih =>
    intro i hi cur tD tC seen r h
    cases hty : e.type
    · simp only [validateEntriesLoop, if_neg hi, hty] at h
      obtain ⟨hstep, hrest⟩ := ih (i + 1) (Nat.succ_ne_zero i) _ _ _ _ _ h
      obtain ⟨hr, hcur⟩ := entryResultStep_valid hstep
      refine ⟨hr, ?_⟩
      intro x hx
      rcases List.mem_cons.mp hx with hx | hx
      · rw [hx]; exact hcur hi
      · exact hrest x hx
    · simp only [validateEntriesLoop, if_neg hi, hty] at h
      obtain ⟨hstep, hrest⟩ := ih (i + 1) (Nat.succ_ne_zero i) _ _ _ _ _ h
      obtain ⟨hr, hcur⟩ := entryResultStep_valid hstep
      refine ⟨hr, ?_⟩
      intro x hx
      rcases List.mem_cons.mp hx with hx | hx
      · rw [hx]; exact hcur hi
      · exact hrest x hx

/-- First step of the entry loop: the debit total after the whole loop is
the first entry's amount plus the debit sum of all entries. -/
theorem validateEntriesLoop_zero_debits (e0 : Entry) (rest : List Entry) (cur0 : String)
    (tD0 tC0 : Money) (seen : List String) (r : ValidationResult) :
    (validateEntriesLoop (e0 :: rest) 0 cur0 tD0 tC0 seen r).1.amount
      = e0.amount.amount + sumDebits (e0 :: rest) := by
  cases hty : e0.type
  · simp only [validateEntriesLoop, hty, if_pos rfl]
    rw [(validateEntriesLoop_totals rest 1 Nat.one_ne_zero _ _ _ _ _).1,
      sumDebits_cons, hty]
    simp
    ring
  · simp only [validateEntriesLoop, hty, if_pos rfl]
    rw [(validateEntriesLoop_totals rest 1 Nat.one_ne_zero _ _ _ _ _).1,
      sumDebits_cons, hty]
    simp

/-- First step of the entry loop: the credit total after the whole loop is
the first entry's amount plus the credit sum of all entries. -/
theorem validateEntriesLoop_zero_credits (e0 : Entry) (rest : List Entry) (cur0 : String)
    (tD0 tC0 : Money) (seen : List String) (r : ValidationResult) :
    (validateEntriesLoop (e0 :: rest) 0 cur0 tD0 tC0 seen r).2.1.amount
      = e0.amount.amount + sumCredits (e0 :: rest) := by
  cases hty : e0.type
  · simp only [validateEntriesLoop, hty, if_pos rfl]
    rw [(validateEntriesLoop_totals rest 1 Nat.one_ne_zero _ _ _ _ _).2,
      sumCredits_cons, hty]
    simp
  · simp only [validateEntriesLoop, hty, if_pos rfl]
    rw [(validateEntriesLoop_totals rest 1 Nat.one_ne_zero _ _ _ _ _).2,
      sumCredits_cons, hty]
    simp
    ring

/-- First step of the entry loop: a valid outcome forces every entry onto
the first entry's currency. -/
theorem validateEntriesLoop_zero_valid {e0 : Entry} {rest : List Entry} {cur0 : String}
    {tD0 tC0 : Money} {seen : List String} {r : ValidationResult}
    (h : (validateEntriesLoop (e0 :: rest) 0 cur0 tD0 tC0 seen r).2.2.valid = true) :
    ∀ e ∈ e0 :: rest, e.amount.currency = e0.amount.currency := by
  cases hty : e0.type
  · simp only [validateEntriesLoop, hty, if_pos rfl] at h
    obtain ⟨-, hrest⟩ := validateEntriesLoop_validInv rest 1 Nat.one_ne_zero _ _ _ _ _ h
    intro x hx
    rcases List.mem_cons.mp hx with hx | hx
    · rw [hx]
    · exact hrest x hx
  · simp only [validateEntriesLoop, hty, if_pos rfl] at h
    obtain ⟨-, hrest⟩ := validateEntriesLoop_validInv rest 1 Nat.one_ne_zero _ _ _ _ _ h
    intro x hx
    rcases List.mem_cons.mp hx with hx | hx
    · rw [hx]
    · exact hrest x hx

/-- Core of the validator soundness argument: if the final
debits-equal-credits gate of BasicValidator.Validate leaves the result
valid on a nonempty entry list, the list is balanced and single-currency.
The initial result R is arbitrary. -/
theorem validate_cons_core {e0 : Entry} {rest : List Entry} {R : ValidationResult}
    (h : (if (validateEntriesLoop (e0 :: rest) 0 "" ⟨0, ""⟩ ⟨0, ""⟩ [] R).1.amount
            ≠ (validateEntriesLoop (e0 :: rest) 0 "" ⟨0, ""⟩ ⟨0, ""⟩ [] R).2.1.amount
          then (validateEntriesLoop (e0 :: rest) 0 "" ⟨0, ""⟩ ⟨0, ""⟩ []
            R).2.2.addError ErrCodeUnbalanced
          else (validateEntriesLoop (e0 :: rest) 0 "" ⟨0, ""⟩ ⟨0, ""⟩ []
            R).2.2).valid = true) :
    sumDebits (e0 :: rest) = sumCredits (e0 :: rest) ∧
      ∀ e ∈ e0 :: rest, e.amount.currency = e0.amount.currency := by
  split at h
  · exact absurd h (by simp [ValidationResult.addError])
  · next hbal =>
    rw [validateEntriesLoop_zero_debits, validateEntriesLoop_zero_credits] at hbal
    have hb := not_not.mp hbal
    exact ⟨by linarith, validateEntriesLoop_zero_valid h⟩

/-- C1: for every transaction accepted by the built-in structural validator
(BasicValidator.Validate returns Valid = true), the sum of the debit entry
amounts equals the sum of the credit entry amounts and all entries carry
one single currency. -/
theorem c1_validator_balanced_single_currency (tx : Transaction)
    (h : (BasicValidator.Validate tx).valid = true) :
    sumDebits tx.entries = sumCredits tx.entries ∧
      ∃ c, ∀ e ∈ tx.entries, e.amount.currency = c := by
  simp only [BasicValidator.Validate] at h
  cases hE : tx.entries with
  | nil =>
    rw [hE] at h
    simp [validateEntriesLoop, ValidationResult.addError] at h
  | cons e0 rest =>
    rw [hE] at h
    split at h
    · obtain ⟨hb, hc⟩ := validate_cons_core h
      exact ⟨hb, e0.amount.currency, hc⟩
    · obtain ⟨hb, hc⟩ := validate_cons_core h
      exact ⟨hb, e0.amount.currency, hc⟩

/-- Witness for C1: the sample transaction is accepted by the validator and
satisfies the balanced-and-single-currency conclusion. -/
theorem c1_witness :
    (BasicValidator.Validate sampleTx).valid = true ∧
      (sumDebits sampleTx.entries = sumCredits sampleTx.entries ∧
        ∃ c, ∀ e ∈ sampleTx.entries, e.amount.currency = c) :=
  ⟨by norm_num +decide [BasicValidator.Validate, validateEntriesLoop, entryResultStep,
      Money.isZero, Money.isNegative, ValidationResult.addError, sampleTx],
    c1_validator_balanced_single_currency sampleTx
      (by norm_num +decide [BasicValidator.Validate, validateEntriesLoop, entryResultStep,
        Money.isZero, Money.isNegative, ValidationResult.addError, sampleTx])⟩


/-- C2 (observation of the code): when the repository Update fails,
ProcessTransaction returns the store error but leaves the caller-visible
in-memory transaction stamped Posted with a set posted-at, instead of its
prior Draft status and unset posted-at. -/
theorem c2_store_failure_leaves_posted :
    (ProcessTransaction false 100 sampleTx).1 = Except.error ProcError.storeFailed ∧
    (ProcessTransaction false 100 sampleTx).2.status = TransactionStatus.posted ∧
    (ProcessTransaction false 100 sampleTx).2.postedAt = some 100 ∧
    sampleTx.status = TransactionStatus.draft ∧
    sampleTx.postedAt = none := by
  refine ⟨?_, ?_, ?_, rfl, rfl⟩ <;>
    norm_num +decide [ProcessTransaction, BasicValidator.Validate, validateEntriesLoop,
      entryResultStep, Money.isZero, Money.isNegative, ValidationResult.addError, sampleTx]

/-- Totals invariant of the summary loop: each side's total grows by
exactly the sum of that side's entry amounts. -/
theorem summaryLoop_totals (entries : List Entry) :
    ∀ (tD tC : Money) (accts : List String),
      (summaryLoop entries tD tC accts).1.amount = tD.amount + sumDebits entries ∧
      (summaryLoop entries tD tC accts).2.1.amount = tC.amount + sumCredits entries := by
  induction entries with
  | nil => intro tD tC accts; simp [summaryLoop, sumDebits, sumCredits]
  | cons e rest ih =>
    intro tD tC accts
    cases hty : e.type
    · simp only [summaryLoop, hty]
      obtain ⟨h1, h2⟩ := ih ⟨tD.amount + e.amount.amount, e.amount.currency⟩ tC
        (accts ++ [e.accountID])
      refine ⟨?_, ?_⟩
      · rw [h1, sumDebits_cons, hty]
        simp
        ring
      · rw [h2, sumCredits_cons, hty]
        simp
    · simp only [summaryLoop, hty]
      obtain ⟨h1, h2⟩ := ih tD ⟨tC.amount + e.amount.amount, e.amount.currency⟩
        (accts ++ [e.accountID])
      refine ⟨?_, ?_⟩
      · rw [h1, sumDebits_cons, hty]
        simp
      · rw [h2, sumCredits_cons, hty]
        simp
        ring

/-- C10: GetTransactionSummary reads the first entry unconditionally for
the net-amount currency, so it is total only on transactions with at
least one entry: for a non-empty entry list it returns total debits,
total credits, net = debits − credits and the entry count, and for an
empty entry list the first-element access is out of bounds. -/
theorem c10_summary_requires_nonempty_entries (tx : Transaction) :
    (tx.entries ≠ [] →
      ∃ s, GetTransactionSummary tx = some s ∧
        s.totalDebits.amount = sumDebits tx.entries ∧
        s.totalCredits.amount = sumCredits tx.entries ∧
        s.netAmount.amount = s.totalDebits.amount - s.totalCredits.amount ∧
        s.entryCount = tx.entries.length) ∧
    (tx.entries = [] → GetTransactionSummary tx = none) := by
  constructor
  · intro hne
    cases hE : tx.entries with
    | nil => exact absurd hE hne
    | cons e0 rest =>
      obtain ⟨h1, h2⟩ := summaryLoop_totals (e0 :: rest) ⟨0, ""⟩ ⟨0, ""⟩ []
      simp only [GetTransactionSummary, hE]
      refine ⟨_, rfl, ?_, ?_, rfl, rfl⟩
      · rw [h1]
        simp
      · rw [h2]
        simp
  · intro hE
    simp only [GetTransactionSummary, hE]

/-- Witness for C10: the sample transaction has entries, and its summary
satisfies the stated totals. -/
theorem c10_witness :
    sampleTx.entries ≠ [] ∧
      ∃ s, GetTransactionSummary sampleTx = some s ∧
        s.totalDebits.amount = sumDebits sampleTx.entries ∧
        s.totalCredits.amount = sumCredits sampleTx.entries ∧
        s.netAmount.amount = s.totalDebits.amount - s.totalCredits.amount ∧
        s.entryCount = sampleTx.entries.length :=
  ⟨by simp [sampleTx],
    (c10_summary_requires_nonempty_entries sampleTx).1 (by simp [sampleTx])⟩

/-- C3 (observation of the code): the balance fold of CalculateBalance
has no account-id filter, so for account A (an Asset) and one matching
posted transaction with entries (A, 100 USD, Debit) and (B, 100 USD,
Credit) the code returns 0 USD, while the specified per-account balance
of A is 100. -/
theorem c3_balance_ignores_account_filter :
    CalculateBalance [("A", acctA)] [postedTx] "A" ⟨0, 10⟩
      = Except.ok { amount := 0, currency := "USD" } ∧
    accountBalanceSpec "A" AccountType.asset [postedTx] = 100 ∧
    ((0 : ℚ) ≠ 100) := by
  refine ⟨?_, ?_, by norm_num⟩
  · norm_num +decide [CalculateBalance, lookupList, acctA, getTransactionsForPeriod,
      matchesPeriodQuery, postedTx, sampleTx, calculateBalanceFromTransactions,
      balanceTxsLoop, balanceEntriesLoop]
  · norm_num +decide [accountBalanceSpec, postedTx, sampleTx, normalSide]

/-- Counterexample for C4: the zero balance returned when no transactions
match is denominated in the fixed currency "USD", not in the account's
currency: for an account whose balance is held in EUR the result currency
is still "USD". -/
theorem c4_counterexample :
    CalculateBalance [("E", acctEUR)] [] "E" ⟨0, 10⟩
      = Except.ok { amount := 0, currency := "USD" } ∧
    acctEUR.balance.map Money.currency = some "EUR" ∧
    ("USD" : String) ≠ "EUR" := by
  refine ⟨?_, by simp [acctEUR, acctA], by decide⟩
  norm_num +decide [CalculateBalance, lookupList, acctEUR, acctA,
    getTransactionsForPeriod, matchesPeriodQuery, calculateBalanceFromTransactions]

/-- C4 (amended): for every account and period with no matching Posted
transactions, CalculateBalance returns a zero amount denominated in the
fixed default currency "USD". -/
theorem c4_zero_balance_in_usd (accounts : List (String × Account))
    (txStore : List Transaction) (accountID : String) (period : ReportPeriod)
    (acc : Account) (hacc : lookupList accounts accountID = some acc)
    (hempty : getTransactionsForPeriod txStore accountID period = []) :
    CalculateBalance accounts txStore accountID period
      = Except.ok { amount := 0, currency := "USD" } := by
  simp only [CalculateBalance, hacc, hempty, calculateBalanceFromTransactions]

/-- Witness for C4: a concrete account with an empty store. -/
theorem c4_witness :
    lookupList [("E", acctEUR)] "E" = some acctEUR ∧
    getTransactionsForPeriod [] "E" ⟨0, 10⟩ = [] ∧
    CalculateBalance [("E", acctEUR)] [] "E" ⟨0, 10⟩
      = Except.ok { amount := 0, currency := "USD" } :=
  ⟨by simp [lookupList], by simp [getTransactionsForPeriod],
    c4_zero_balance_in_usd _ _ _ _ acctEUR (by simp [lookupList])
      (by simp [getTransactionsForPeriod])⟩

/-- Replacing the binding of `id` in a list leaves the first match of the
search for `id` at the replaced value. -/
theorem find?_map_upsert {α : Type} (l : List (String × α)) (id : String) (v : α) :
    (l.map (fun p => if p.1 == id then (id, v) else p)).find? (fun p => p.1 == id)
      = (l.find? (fun p => p.1 == id)).map (fun _ => (id, v)) := by
  induction l with
  | nil => simp
  | cons p rest ih =>
    rw [List.map_cons]
    by_cases hp : (p.1 == id) = true
    · rw [if_pos hp,
        @List.find?_cons_of_pos _ (fun q => q.1 == id) (id, v) _ (by simp),
        @List.find?_cons_of_pos _ (fun q => q.1 == id) p _ hp]
      rfl
    · rw [if_neg hp,
        @List.find?_cons_of_neg _ (fun q => q.1 == id) p _ hp,
        @List.find?_cons_of_neg _ (fun q => q.1 == id) p _ hp]
      exact ih

/-- A search that fails on the first list continues into the second. -/
theorem find?_append_of_none {α : Type} (l1 l2 : List α) (p : α → Bool)
    (h : l1.find? p = none) : (l1 ++ l2).find? p = l2.find? p := by
  induction l1 with
  | nil => simp
  | cons a rest ih =>
    by_cases ha : p a
    · rw [List.find?_cons_of_pos _ ha] at h
      exact absurd h (by simp)
    · rw [List.find?_cons_of_neg _ ha] at h
      rw [List.cons_append, List.find?_cons_of_neg _ ha]
      exact ih h

/-- Reading a key back after a map write returns the written value. -/
theorem lookupList_upsert_self {α : Type} (l : List (String × α)) (id : String) (v : α) :
    lookupList (upsert l id v) id = some v := by
  unfold lookupList upsert
  by_cases hp : (l.find? (fun p => p.1 == id)).isSome
  · rw [if_pos hp, find?_map_upsert]
    obtain ⟨x, hx⟩ := Option.isSome_iff_exists.mp hp
    rw [hx]
    rfl
  · rw [if_neg hp,
      find?_append_of_none _ _ _ (Option.not_isSome_iff_eq_none.mp hp)]
    simp [List.find?]

/-- C5 (amended): voiding succeeds exactly once.  The first call on a
Posted, not-yet-voided transaction stamps status = Voided, voided-at and
the void reason and persists the result; a second call on the same
transaction fails, with the cannot-void-non-posted error (the status
check rejects the now-Voided transaction before the already-voided check
is reached). -/
theorem c5_void_succeeds_once (store : List (String × Transaction)) (tx : Transaction)
    (txID r1 r2 : String) (now1 now2 : Nat)
    (hread : lookupList store txID = some tx)
    (hposted : tx.status = TransactionStatus.posted)
    (hnv : tx.voidedAt = none) :
    ∃ st1, VoidTransaction store txID r1 now1 = Except.ok st1 ∧
      lookupList st1 txID = some { tx with
        status := TransactionStatus.voided
        voidedAt := some now1
        voidReason := r1
        lastModified := now1 } ∧
      VoidTransaction st1 txID r2 now2 = Except.error VoidError.cannotVoidNonPosted := by
  refine ⟨upsert store txID { tx with
      status := TransactionStatus.voided
      voidedAt := some now1
      voidReason := r1
      lastModified := now1 }, ?_, ?_, ?_⟩
  · simp [VoidTransaction, hread, hposted, hnv]
  · exact lookupList_upsert_self store txID _
  · have hl := lookupList_upsert_self store txID ({ tx with
      status := TransactionStatus.voided
      voidedAt := some now1
      voidReason := r1
      lastModified := now1 })
    simp [VoidTransaction, hl]

/-- The one-element store after the first void of the sample posted
transaction. -/
def voidedOnceStore : List (String × Transaction) :=
  [("T1", { postedTx with
    status := TransactionStatus.voided
    voidedAt := some 20
    voidReason := "dup"
    lastModified := 20 })]

/-- Counterexample for C5 as stated: after a successful void, the second
call fails with the cannot-void-non-posted error, not with AlreadyVoided
(the status check fires first because the status is now Voided). -/
theorem c5_counterexample :
    VoidTransaction [("T1", postedTx)] "T1" "dup" 20 = Except.ok voidedOnceStore ∧
    VoidTransaction voidedOnceStore "T1" "again" 30
      = Except.error VoidError.cannotVoidNonPosted ∧
    VoidTransaction voidedOnceStore "T1" "again" 30
      ≠ Except.error VoidError.alreadyVoided := by
  refine ⟨?_, ?_, ?_⟩ <;>
    norm_num +decide [VoidTransaction, lookupList, upsert, voidedOnceStore, postedTx,
      sampleTx, List.find?]

/-- Witness for the amended C5 at a concrete store. -/
theorem c5_witness :
    lookupList [("T1", postedTx)] "T1" = some postedTx ∧
      ∃ st1, VoidTransaction [("T1", postedTx)] "T1" "dup" 20 = Except.ok st1 ∧
        lookupList st1 "T1" = some { postedTx with
          status := TransactionStatus.voided
          voidedAt := some 20
          voidReason := "dup"
          lastModified := 20 } ∧
        VoidTransaction st1 "T1" "again" 30
          = Except.error VoidError.cannotVoidNonPosted :=
  ⟨by simp [lookupList, postedTx, List.find?],
    c5_void_succeeds_once [("T1", postedTx)] postedTx "T1" "dup" "again" 20 30
      (by simp [lookupList, postedTx, List.find?]) (by simp [postedTx]) (by simp [postedTx, sampleTx])⟩

/-- ProcessTransaction never changes the identity fields of the
in-memory transaction: id, type, entries and reversed-from are the same
on every path. -/
theorem ProcessTransaction_fields (updateOk : Bool) (now : Nat) (tx : Transaction) :
    (ProcessTransaction updateOk now tx).2.id = tx.id ∧
    (ProcessTransaction updateOk now tx).2.type = tx.type ∧
    (ProcessTransaction updateOk now tx).2.entries = tx.entries ∧
    (ProcessTransaction updateOk now tx).2.reversedFrom = tx.reversedFrom := by
  simp only [ProcessTransaction]
  split
  · simp
  · split
    · simp
    · cases updateOk <;> simp

/-- Swapping entry sides preserves accounts and amounts and reverses
every side. -/
theorem reverseEntry_maps (entries : List Entry) :
    (entries.map reverseEntry).map Entry.accountID = entries.map Entry.accountID ∧
    (entries.map reverseEntry).map Entry.amount = entries.map Entry.amount ∧
    (entries.map reverseEntry).map Entry.type = entries.map (fun e => e.type.reverse) := by
  refine ⟨?_, ?_, ?_⟩ <;> rw [List.map_map] <;> rfl

/-- C6: for every Posted, not-yet-reversed transaction,
ReverseTransaction constructs a reversal whose id is "REV-" plus the
original id, whose type is Reversal, whose entries keep the original's
accounts and amounts with debit and credit swapped, and whose
reversed-from is the original id; the original is stamped with
reversed-at and reversal-id and its update is issued only when the
reversal transaction was successfully posted. -/
theorem c6_reverse_constructs_and_stamps_after (origTx : Transaction) (reason : String)
    (revOk origOk : Bool) (now : Nat)
    (hposted : origTx.status = TransactionStatus.posted)
    (hnr : origTx.reversedAt = none) :
    ∃ rev, (ReverseTransaction origTx reason revOk origOk now).reversal = some rev ∧
      rev.id = "REV-" ++ origTx.id ∧
      rev.type = TransactionType.reversal ∧
      rev.reversedFrom = origTx.id ∧
      rev.entries.map Entry.accountID = origTx.entries.map Entry.accountID ∧
      rev.entries.map Entry.amount = origTx.entries.map Entry.amount ∧
      rev.entries.map Entry.type = origTx.entries.map (fun e => e.type.reverse) ∧
      (∀ e, (ReverseTransaction origTx reason revOk origOk now).result
          = Except.error (ReverseError.processFailed e) →
        (ReverseTransaction origTx reason revOk origOk now).orig = origTx ∧
        (ReverseTransaction origTx reason revOk origOk now).origPersisted = false) ∧
      ((∀ e, (ReverseTransaction origTx reason revOk origOk now).result
          ≠ Except.error (ReverseError.processFailed e)) →
        (ReverseTransaction origTx reason revOk origOk now).orig.reversedAt = some now ∧
        (ReverseTransaction origTx reason revOk origOk now).orig.reversalID
          = "REV-" ++ origTx.id ∧
        (ReverseTransaction origTx reason revOk origOk now).origPersisted = true) := by
  obtain ⟨hid, htype, hentries, hfrom⟩ :=
    ProcessTransaction_fields revOk now (reversalTxOf origTx reason now)
  obtain ⟨hacc, hamt, hty⟩ := reverseEntry_maps origTx.entries
  refine ⟨(ProcessTransaction revOk now (reversalTxOf origTx reason now)).2, ?_⟩
  rcases hp : (ProcessTransaction revOk now (reversalTxOf origTx reason now)).1 with e | u
  · have hout : ReverseTransaction origTx reason revOk origOk now =
        ⟨Except.error (ReverseError.processFailed e), origTx,
          some (ProcessTransaction revOk now (reversalTxOf origTx reason now)).2, false⟩ := by
      simp [ReverseTransaction, hposted, hnr, hp]
    rw [hout]
    refine ⟨rfl, ?_, ?_, ?_, ?_, ?_, ?_, ?_, ?_⟩
    · rw [hid]; rfl
    · rw [htype]; rfl
    · rw [hfrom]; rfl
    · rw [hentries]; exact hacc
    · rw [hentries]; exact hamt
    · rw [hentries]; exact hty
    · intro e0 _
      exact ⟨rfl, rfl⟩
    · intro hall
      exact absurd rfl (hall e)
  · cases u
    cases origOk
    · have hout : ReverseTransaction origTx reason revOk false now =
          ⟨Except.error ReverseError.storeFailed,
            { origTx with
              reversedAt := some now
              reversalID := (ProcessTransaction revOk now (reversalTxOf origTx reason now)).2.id
              lastModified := now },
            some (ProcessTransaction revOk now (reversalTxOf origTx reason now)).2, true⟩ := by
        simp [ReverseTransaction, hposted, hnr, hp]
      rw [hout]
      refine ⟨rfl, ?_, ?_, ?_, ?_, ?_, ?_, ?_, ?_⟩
      · rw [hid]; rfl
      · rw [htype]; rfl
      · rw [hfrom]; rfl
      · rw [hentries]; exact hacc
      · rw [hentries]; exact hamt
      · rw [hentries]; exact hty
      · intro e0 he
        exact absurd he (by simp)
      · intro _
        refine ⟨rfl, ?_, rfl⟩
        rw [hid]
        rfl
    · have hout : ReverseTransaction origTx reason revOk true now =
          ⟨Except.ok (),
            { origTx with
              reversedAt := some now
              reversalID := (ProcessTransaction revOk now (reversalTxOf origTx reason now)).2.id
              lastModified := now },
            some (ProcessTransaction revOk now (reversalTxOf origTx reason now)).2, true⟩ := by
        simp [ReverseTransaction, hposted, hnr, hp]
      rw [hout]
      refine ⟨rfl, ?_, ?_, ?_, ?_, ?_, ?_, ?_, ?_⟩
      · rw [hid]; rfl
      · rw [htype]; rfl
      · rw [hfrom]; rfl
      · rw [hentries]; exact hacc
      · rw [hentries]; exact hamt
      · rw [hentries]; exact hty
      · intro e0 he
        exact absurd he (by simp)
      · intro _
        refine ⟨rfl, ?_, rfl⟩
        rw [hid]
        rfl

/-- Witness for C6: reversing the concrete posted sample transaction
with both store writes succeeding. -/
theorem c6_witness :
    postedTx.status = TransactionStatus.posted ∧ postedTx.reversedAt = none ∧
      ∃ rev, (ReverseTransaction postedTx "err" true true 50).reversal = some rev ∧
        rev.id = "REV-" ++ postedTx.id ∧
        rev.type = TransactionType.reversal ∧
        rev.reversedFrom = postedTx.id ∧
        rev.entries.map Entry.accountID = postedTx.entries.map Entry.accountID ∧
        rev.entries.map Entry.amount = postedTx.entries.map Entry.amount ∧
        rev.entries.map Entry.type = postedTx.entries.map (fun e => e.type.reverse) ∧
        (∀ e, (ReverseTransaction postedTx "err" true true 50).result
            = Except.error (ReverseError.processFailed e) →
          (ReverseTransaction postedTx "err" true true 50).orig = postedTx ∧
          (ReverseTransaction postedTx "err" true true 50).origPersisted = false) ∧
        ((∀ e, (ReverseTransaction postedTx "err" true true 50).result
            ≠ Except.error (ReverseError.processFailed e)) →
          (ReverseTransaction postedTx "err" true true 50).orig.reversedAt = some 50 ∧
          (ReverseTransaction postedTx "err" true true 50).orig.reversalID
            = "REV-" ++ postedTx.id ∧
          (ReverseTransaction postedTx "err" true true 50).origPersisted = true) :=
  ⟨by simp [postedTx, sampleTx], by simp [postedTx, sampleTx],
    c6_reverse_constructs_and_stamps_after postedTx "err" true true 50
      (by simp [postedTx, sampleTx]) (by simp [postedTx, sampleTx])⟩

/-- When the first `k` writes succeed and the write of element `k`
fails, the phase-2 write loop records exactly the successful prefix and
the failed attempt, and reports the failing id. -/
theorem writesUntilFailure_spec (updateOk : String → Bool) (l : List Transaction) :
    ∀ (k : Nat) (hk : k < l.length),
      updateOk (l.get ⟨k, hk⟩).id = false →
      (∀ j (hj : j < k), updateOk (l.get ⟨j, Nat.lt_trans hj hk⟩).id = true) →
      writesUntilFailure updateOk l =
        ((l.take k).map (fun t => (true, t)) ++ [(false, l.get ⟨k, hk⟩)],
          some (l.get ⟨k, hk⟩).id) := by
  induction l with
  | nil =>
    intro k hk
    exact absurd hk (by simp)
  | cons t rest ih =>
    intro k hk hfail hpre
    cases k with
    | zero =>
      simp only [List.get] at hfail
      simp [writesUntilFailure, hfail]
    | succ k =>
      have ht : updateOk t.id = true := hpre 0 (Nat.succ_pos k)
      have hk2 : k < rest.length := Nat.lt_of_succ_lt_succ hk
      have hfail2 : updateOk (rest.get ⟨k, hk2⟩).id = false := hfail
      have hpre2 : ∀ j (hj : j < k), updateOk (rest.get ⟨j, Nat.lt_trans hj hk2⟩).id = true :=
        fun j hj => hpre (j + 1) (Nat.succ_lt_succ hj)
      simp only [writesUntilFailure, ht, if_pos]
      rw [ih k hk2 hfail2 hpre2]
      simp [List.take_succ_cons]

/-- C7: in ProcessTransactionBatch, any validation or status failure in
phase 1 aborts the batch before any store write; and when the write of
the k-th stamped transaction in phase 2 fails, the original store error
is returned, every in-memory transaction ends reset to Draft with
posted-at cleared, and the write trace is the successful posted prefix,
the failed attempt, and then one Draft-reset write attempt per batch
element (rollback outcomes discarded). -/
theorem c7_batch_aborts_and_rolls_back (updateOk : String → Bool) (now rollNow : Nat)
    (txs : List Transaction) :
    (∀ e, validateAll txs = some e →
      ProcessTransactionBatch updateOk now rollNow txs = (Except.error e, txs, [])) ∧
    (validateAll txs = none →
      ∀ (k : Nat) (hk : k < txs.length),
        updateOk (txs.get ⟨k, hk⟩).id = false →
        (∀ j (hj : j < k), updateOk (txs.get ⟨j, Nat.lt_trans hj hk⟩).id = true) →
        ProcessTransactionBatch updateOk now rollNow txs =
          (Except.error (BatchError.storeFailed (txs.get ⟨k, hk⟩).id),
            txs.map (fun t => draftReset rollNow (stampPosted now t)),
            (txs.take k).map (fun t => (true, stampPosted now t))
              ++ [(false, stampPosted now (txs.get ⟨k, hk⟩))]
              ++ txs.map (fun t => (updateOk t.id, draftReset rollNow t)))) := by
  constructor
  · intro e he
    have hne : txs ≠ [] := by
      intro h
      rw [h] at he
      simp [validateAll] at he
    have hlen : ¬ txs.length = 0 := fun h => hne (List.length_eq_zero.mp h)
    simp [ProcessTransactionBatch, he, hne]
  · intro hval k hk hfail hpre
    have hlen : ¬ txs.length = 0 := by omega
    have hkm : k < (txs.map (stampPosted now)).length := by simpa using hk
    have hget : (txs.map (stampPosted now)).get ⟨k, hkm⟩
        = stampPosted now (txs.get ⟨k, hk⟩) := by
      simp [List.get_map]
    have hfailm : updateOk ((txs.map (stampPosted now)).get ⟨k, hkm⟩).id = false := by
      rw [hget]
      simpa [stampPosted] using hfail
    have hprem : ∀ j (hj : j < k),
        updateOk ((txs.map (stampPosted now)).get ⟨j, Nat.lt_trans hj hkm⟩).id = true := by
      intro j hj
      have : (txs.map (stampPosted now)).get ⟨j, Nat.lt_trans hj hkm⟩
          = stampPosted now (txs.get ⟨j, Nat.lt_trans hj hk⟩) := by
        simp [List.get_map]
      rw [this]
      simpa [stampPosted] using hpre j hj
    have hw := writesUntilFailure_spec updateOk (txs.map (stampPosted now)) k hkm hfailm hprem
    rw [hget] at hw
    simp only [ProcessTransactionBatch, if_neg hlen, hval, hw]
    refine Prod.ext ?_ (Prod.ext ?_ ?_)
    · simp [stampPosted]
    · simp [List.map_map]
    · rw [← List.map_take, List.map_map, List.map_map, List.map_map]
      rfl

/-- Witness for C7: a two-element batch whose second write fails; the
first element is compensated and the original error surfaces. -/
theorem c7_witness :
    validateAll [sampleTx, sampleTx2] = none ∧
    ProcessTransactionBatch (fun id => id == "T1") 100 200 [sampleTx, sampleTx2] =
      (Except.error (BatchError.storeFailed "T2"),
        [draftReset 200 (stampPosted 100 sampleTx), draftReset 200 (stampPosted 100 sampleTx2)],
        [(true, stampPosted 100 sampleTx), (false, stampPosted 100 sampleTx2),
          (true, draftReset 200 sampleTx), (false, draftReset 200 sampleTx2)]) := by
  have hval : validateAll [sampleTx, sampleTx2] = none := by
    norm_num +decide [validateAll, BasicValidator.Validate, validateEntriesLoop,
      entryResultStep, Money.isZero, Money.isNegative, ValidationResult.addError,
      sampleTx, sampleTx2]
  have hk : 1 < ([sampleTx, sampleTx2] : List Transaction).length := by decide
  have h := (c7_batch_aborts_and_rolls_back (fun id => id == "T1") 100 200
      [sampleTx, sampleTx2]).2 hval 1 hk
    (by exact (by decide : (("T2" : String) == "T1") = false))
    (by
      intro j hj
      have hj0 : j = 0 := by omega
      subst hj0
      exact (by decide : (("T1" : String) == "T1") = true))
  refine ⟨hval, ?_⟩
  rw [h]
  norm_num +decide [sampleTx, sampleTx2, stampPosted, draftReset]

/-- A successful Create initializes the version to 1; a successful
Update of a version-exposing entity sets the stored version to the
caller's expected version plus one; an Update whose version differs from
the stored one fails with the optimistic-lock error carrying the stored
and expected versions, and leaves the store untouched. -/
theorem c8_version_discipline {E : Type} (ops : EntityOps E) (now : Nat)
    (s : StoreState E) (e : E) (gv : E → Int) (hgv : ops.getVersion = some gv) :
    ((MemoryStore.create ops now s e).1 = Except.ok () →
      versionOf (MemoryStore.create ops now s e).2.version (ops.getID e) = 1) ∧
    ((MemoryStore.update ops now s e).1 = Except.ok () →
      versionOf (MemoryStore.update ops now s e).2.version (ops.getID e) = gv e + 1) ∧
    (∀ old, lookupList s.data (ops.getID e) = some old →
      gv e ≠ versionOf s.version (ops.getID e) →
      MemoryStore.update ops now s e =
        (Except.error (StoreError.optimisticLock (versionOf s.version (ops.getID e)) (gv e)),
          s)) := by
  refine ⟨?_, ?_, ?_⟩
  · intro hok
    simp only [MemoryStore.create] at hok ⊢
    by_cases h1 : ops.getID e = ""
    · simp [h1] at hok
    · by_cases h2 : (lookupList s.data (ops.getID e)).isSome
      · simp [h1, h2] at hok
      · simp only [h1, h2, if_neg, if_false]
        simp [versionOf, lookupList_upsert_self]
  · intro hok
    simp only [MemoryStore.update, hgv] at hok ⊢
    cases hold : lookupList s.data (ops.getID e) with
    | none => simp [hold] at hok
    | some old =>
      simp only [hold] at hok ⊢
      by_cases hv : gv e ≠ versionOf s.version (ops.getID e)
      · simp [hv] at hok
      · simp only [hv, if_neg, if_false]
        have hve : gv e = versionOf s.version (ops.getID e) := not_not.mp hv
        simp [versionOf, lookupList_upsert_self, hve]
  · intro old hold hv
    simp [MemoryStore.update, hgv, hold, hv]

/-- An accepted Create holds the created entity under its id with
version 1; an entity used by the C8 witness. -/
def acct1 : Acct := ⟨"A1", 1, 7⟩

/-- The store state holding exactly acct1, as Create leaves it. -/
def storeWithAcct1 : StoreState Acct :=
  { data := [("A1", acct1)]
    audit := [⟨"A1", "CREATE", 5, none, some acct1⟩]
    version := [("A1", 1)] }

/-- Witness for C8 at a concrete store: create initializes the version
to 1, a matching update bumps it to 2, and a stale update fails with the
optimistic-lock error and leaves the store unchanged. -/
theorem c8_witness :
    ((MemoryStore.create acctOps 5 ⟨[], [], []⟩ acct1).1 = Except.ok () ∧
      versionOf (MemoryStore.create acctOps 5 ⟨[], [], []⟩ acct1).2.version "A1" = 1) ∧
    ((MemoryStore.update acctOps 6 storeWithAcct1 { acct1 with ver := 1, val := 9 }).1
        = Except.ok () ∧
      versionOf (MemoryStore.update acctOps 6 storeWithAcct1
        { acct1 with ver := 1, val := 9 }).2.version "A1" = 2) ∧
    (MemoryStore.update acctOps 7 storeWithAcct1 { acct1 with ver := 3, val := 9 } =
      (Except.error (StoreError.optimisticLock 1 3), storeWithAcct1)) := by
  have h1 := (c8_version_discipline acctOps 5 (⟨[], [], []⟩ : StoreState Acct) acct1
    Acct.ver rfl).1
  have h2 := (c8_version_discipline acctOps 6 storeWithAcct1
    ({ acct1 with ver := 1, val := 9 }) Acct.ver rfl).2.1
  have h3 := (c8_version_discipline acctOps 7 storeWithAcct1
    ({ acct1 with ver := 3, val := 9 }) Acct.ver rfl).2.2 acct1
    (by decide) (by decide)
  refine ⟨⟨by decide, ?_⟩, ⟨by decide, ?_⟩, ?_⟩
  · exact h1 (by decide)
  · exact h2 (by decide)
  · have : versionOf storeWithAcct1.version (acctOps.getID { acct1 with ver := 3, val := 9 })
        = 1 := by decide
    rw [h3]
    decide

/-- One store operation appends exactly its specified audit records (one
on success, none on failure) and otherwise leaves the log prefix
intact. -/
theorem runOp_audit {E : Type} (ops : EntityOps E) (now : Nat) (s : StoreState E)
    (op : StoreOp E) :
    (runOp ops now s op).2.audit = s.audit ++ opRecords ops now s op := by
  cases op with
  | create e =>
    simp only [runOp, opRecords, MemoryStore.create]
    by_cases h1 : ops.getID e = ""
    · simp [h1, MemoryStore.create]
    · by_cases h2 : (lookupList s.data (ops.getID e)).isSome
      · simp [h1, h2, MemoryStore.create]
      · simp [h1, h2, MemoryStore.create]
  | update e =>
    simp only [runOp, opRecords, MemoryStore.update]
    cases hold : lookupList s.data (ops.getID e) with
    | none => simp [hold, MemoryStore.update]
    | some old =>
      cases hgv : ops.getVersion with
      | none => simp [hold, hgv, MemoryStore.update]
      | some gv =>
        by_cases hv : gv e ≠ versionOf s.version (ops.getID e)
        · simp [hold, hgv, hv, MemoryStore.update]
        · simp [hold, hgv, hv, MemoryStore.update]
  | delete id =>
    simp only [runOp, opRecords, MemoryStore.delete]
    cases hold : lookupList s.data id with
    | none => simp [hold, MemoryStore.delete]
    | some old => simp [hold, MemoryStore.delete]

/-- C9: over any operation sequence, the store's audit log is the
initial log followed by exactly one record per successful mutation, in
commit order, carrying the operation name and the previous and new
snapshots (failed mutations append nothing); consequently the audit
trail of every entity id is the ordered filtration of those records. -/
theorem c9_audit_completeness {E : Type} (ops : EntityOps E) (s : StoreState E)
    (opsList : List (Nat × StoreOp E)) :
    (runOps ops s opsList).audit = s.audit ++ expectedAudit ops s opsList ∧
    (∀ id, MemoryStore.auditTrail (runOps ops s opsList) id =
      MemoryStore.auditTrail s id
        ++ (expectedAudit ops s opsList).filter (fun a => a.entityID == id)) := by
  have main : ∀ (l : List (Nat × StoreOp E)) (st : StoreState E),
      (runOps ops st l).audit = st.audit ++ expectedAudit ops st l := by
    intro l
    induction l with
    | nil => intro st; simp [runOps, expectedAudit]
    | cons p rest ih =>
      intro st
      cases p with
      | mk now op =>
        simp only [runOps, expectedAudit]
        rw [ih, runOp_audit, List.append_assoc]
  refine ⟨main opsList s, ?_⟩
  intro id
  simp [MemoryStore.auditTrail, main opsList s, List.filter_append]

end Finlib
